import Mathlib

/-!
Shallow embedding of `src/Common/filesystemHelpers.cpp` (DB namespace).

OS state (results of `stat`, `statvfs`, the mount table, canonicalization of
paths, existing directories) is passed explicitly; each helper becomes a pure
function of that state, returning `Except FsError _` where the C++ throws.
Paths are modelled as their component sequences (`List String`), with an
`absolute` flag where the distinction matters.
-/

namespace FilesystemHelpers

/-- Error codes: `extern const int` in the source, values defined elsewhere in
the repository; only their distinctness matters here. -/
def LOGICAL_ERROR : Nat := 49

def SYSTEM_ERROR : Nat := 425

def NOT_IMPLEMENTED : Nat := 48

def CANNOT_STATVFS : Nat := 477

/-- The `errno` value for a syscall interrupted by a signal. -/
def EINTR : Nat := 4

/-- The `errno` value for "file exists". -/
def EEXIST : Nat := 17

/-- Errors thrown by the helpers: `DB::Exception(msg, code)` or
`throwFromErrnoWithPath(msg, path, code)` (the latter carries the OS errno). -/
inductive FsError where
  | exception (msg : String) (code : Nat)
  | errnoWithPath (msg : String) (path : String) (errno : Nat) (code : Nat)
deriving DecidableEq, Repr

/-- The fields of `struct statvfs` the callers care about. -/
structure StatVFS where
  f_bsize : Nat
  f_frsize : Nat
  f_blocks : Nat
  f_bavail : Nat
deriving DecidableEq, Repr

/-- One outcome of a `statvfs` call: success filling the struct, or failure
with an errno. -/
abbrev StatVFSOutcome := Except Nat StatVFS

/-- The function `getStatVFS` loops on the syscall; `EINTR` retries, any other failure
throws `CANNOT_STATVFS` with the path and errno, success returns the struct.
The OS is modelled as a list of outcomes, one per call; `none` means the
supplied outcomes ran out with the loop still retrying. -/
def getStatVFS (path : String) : List StatVFSOutcome → Option (Except FsError StatVFS)
  | [] => none
  | Except.ok fs :: _ => some (Except.ok fs)
  | Except.error e :: rest =>
      if e = EINTR then
        getStatVFS path rest
      else
        some (Except.error (FsError.errnoWithPath
          "Could not calculate available disk space (statvfs)" path e CANNOT_STATVFS))

/-- The function `enoughSpaceInDirectory`: with a recent Poco (free-space API available) it
compares `data_size` against `Poco::File(path).freeSpace()`, propagating a
failure of that query; with an old Poco it returns `true` unconditionally.
`free_space` models the query's result. -/
def enoughSpaceInDirectory (poco_recent : Bool) (free_space : Except Nat Nat)
    (data_size : Nat) : Except Nat Bool :=
  if poco_recent then
    match free_space with
    | Except.ok fs => Except.ok (decide (data_size ≤ fs))
    | Except.error e => Except.error e
  else
    Except.ok true

/-- One `mntent` record: the fields read by `getFilesystemName`. -/
structure Mntent where
  mnt_dir : String
  mnt_fsname : String
deriving DecidableEq, Repr

/-- The `getmntent_r` scan loop: reads entries while the directory field
differs from `mount_point`; afterwards the source re-tests the last record
read, throwing `SYSTEM_ERROR` when the table was exhausted without a match. -/
def scanMounts (mount_point : String) : List Mntent → Except FsError String
  | [] => Except.error (FsError.exception
      ("Cannot find name of filesystem by mount point " ++ mount_point) SYSTEM_ERROR)
  | e :: rest =>
      if e.mnt_dir = mount_point then Except.ok e.mnt_fsname
      else scanMounts mount_point rest

/-- The Linux branch of `getFilesystemName`: opens `/etc/mtab` (`none` models
`setmntent` failing), then scans for the first entry whose `mnt_dir` equals
`mount_point` exactly. -/
def getFilesystemName (mtab : Option (List Mntent)) (mount_point : String) :
    Except FsError String :=
  match mtab with
  | none => Except.error (FsError.exception
      "Cannot open /etc/mtab to get name of filesystem" SYSTEM_ERROR)
  | some entries => scanMounts mount_point entries

/-- A `std::filesystem::path`: whether it has a root directory, and the
sequence of its named components. -/
structure FsPath where
  absolute : Bool
  components : List String
deriving DecidableEq, Repr

/-- Rendering of a path as `p.string()` renders it (for error messages). -/
def renderPath (comps : List String) : String :=
  "/" ++ String.intercalate "/" comps

/-- OS state seen by `getMountPoint`: `stat` yields the device id of a
(canonical, absolute) path or an errno, and `canonical` is
`std::filesystem::canonical` (symlink/dot resolution, an OS query). -/
structure OsEnv where
  stat : List String → Except Nat Nat
  canonical : List String → List String

/-- The `get_device_id` lambda inside `getMountPoint`: a failing `stat` throws
`SYSTEM_ERROR` with the path and errno — it is not retried on any errno. -/
def get_device_id (env : OsEnv) (p : List String) : Except FsError Nat :=
  match env.stat p with
  | Except.ok d => Except.ok d
  | Except.error e => Except.error (FsError.errnoWithPath
      ("Cannot stat " ++ renderPath p) (renderPath p) e SYSTEM_ERROR)

/-- The ascent loop of `getMountPoint`: while the path still has a relative
part (components left), stat the parent; a differing device id returns the
current path, otherwise ascend. `device_id` holds the device id of the
current path (the source keeps the variable from the previous iteration,
which is equal since it only ascends on equality). -/
def getMountPointLoop (env : OsEnv) (device_id : Nat) (absolute_path : List String) :
    Except FsError (List String) :=
  if h : absolute_path = [] then
    Except.ok absolute_path
  else
    let parent := absolute_path.dropLast
    match get_device_id env parent with
    | Except.error e => Except.error e
    | Except.ok parent_device_id =>
        if device_id ≠ parent_device_id then Except.ok absolute_path
        else getMountPointLoop env parent_device_id parent
termination_by absolute_path.length
decreasing_by
  simp only [List.length_dropLast]
  have : absolute_path.length ≠ 0 := fun hl => h (List.length_eq_zero.mp hl)
  omega

/-- The function `getMountPoint` rejects relative paths with `LOGICAL_ERROR` before any OS
query, canonicalizes, then walks upward comparing device ids. -/
def getMountPoint (env : OsEnv) (absolute_path : FsPath) :
    Except FsError (List String) :=
  if absolute_path.absolute = false then
    Except.error (FsError.exception "Path is relative. It's a bug." LOGICAL_ERROR)
  else
    let c := env.canonical absolute_path.components
    match get_device_id env c with
    | Except.error e => Except.error e
    | Except.ok device_id => getMountPointLoop env device_id c

/-- The component sequence `begin()..end()` of a path: an absolute path starts
with the root-directory component `"/"`. -/
def pathComponents (p : FsPath) : List String :=
  (if p.absolute then ["/"] else []) ++ p.components

/-- Model of `std::mismatch(a.begin, a.end, b.begin, b.end)` followed by the test that
the second iterator reached `b.end()`: true iff `b`'s components were
exhausted without a mismatch. -/
def mismatchReachedEnd : List String → List String → Bool
  | _, [] => true
  | [], _ :: _ => false
  | a :: as, b :: bs => if a = b then mismatchReachedEnd as bs else false

/-- The function `pathStartsWith`: weakly-canonicalize both paths (an OS query, passed as
`wc`), then test whether every component of the prefix path matches the
corresponding component of the path. -/
def pathStartsWith (wc : FsPath → FsPath) (path prefix_path : FsPath) : Bool :=
  let absolute_path := wc path
  let absolute_prefix_path := wc prefix_path
  mismatchReachedEnd (pathComponents absolute_path) (pathComponents absolute_prefix_path)

/-- The set of directories existing on disk, each as its component sequence. -/
abbrev DirSet := List (List String)

/-- A single `mkdir`: fails with `EEXIST` when the directory already exists. -/
def mkdirOne (fs : DirSet) (d : List String) : Except Nat DirSet :=
  if d ∈ fs then Except.error EEXIST else Except.ok (d :: fs)

/-- Create each directory of `todo` in order, skipping those that already
exist (Poco's `createDirectories` tests existence before creating). -/
def createDirsAux (fs : DirSet) : List (List String) → Except Nat DirSet
  | [] => Except.ok fs
  | d :: rest =>
      if d ∈ fs then createDirsAux fs rest
      else
        match mkdirOne fs d with
        | Except.ok fs' => createDirsAux fs' rest
        | Except.error e => Except.error e

/-- Model of `Poco::File(path).createDirectories()`: create the directory and every
missing ancestor, outermost first. -/
def createDirectories (fs : DirSet) (path : List String) : Except Nat DirSet :=
  createDirsAux fs path.inits

/-- The handle returned by `createTemporaryFile`: a temporary file scoped to
the given directory (its own lifecycle is outside this file). -/
structure TemporaryFile where
  dir : List String
deriving DecidableEq, Repr

/-- The function `createTemporaryFile`: ensure the directory (and ancestors) exist, then
hand back ownership of a fresh `TemporaryFile` for that directory. -/
def createTemporaryFile (fs : DirSet) (path : List String) :
    Except Nat (DirSet × TemporaryFile) :=
  match createDirectories fs path with
  | Except.ok fs' => Except.ok (fs', ⟨path⟩)
  | Except.error e => Except.error e

/-! ### Spec-side definitions (refinement targets, written from the spec's words) -/

/-- The spec's description of mount-point resolution, written from its words:
walk upward from the (already canonical) path and return the first path whose
parent directory has a different device id than it; if ascension reaches the
root without any device-id change, the root is the mount point. -/
def mountPointSpec (dev : List String → Nat) (p : List String) : List String :=
  if h : p = [] then p
  else if dev p.dropLast ≠ dev p then p
  else mountPointSpec dev p.dropLast
termination_by p.length
decreasing_by
  simp only [List.length_dropLast]
  have : p.length ≠ 0 := fun hl => h (List.length_eq_zero.mp hl)
  omega

/-! ### Helper lemmas -/

theorem mountPointSpec_nil (dev : List String → Nat) : mountPointSpec dev [] = [] := by
  rw [mountPointSpec]
  simp

theorem getMountPointLoop_eq_spec (env : OsEnv) (dev : List String → Nat)
    (hstat : ∀ q, env.stat q = Except.ok (dev q)) :
    ∀ n c, c.length ≤ n →
      getMountPointLoop env (dev c) c = Except.ok (mountPointSpec dev c) := by
  intro n
  induction n with
  | zero =>
      intro c hc
      have hc0 : c = [] := List.length_eq_zero.mp (Nat.le_zero.mp hc)
      subst hc0
      rw [getMountPointLoop, mountPointSpec]
      simp
  | succ n ih =>
      intro c hc
      by_cases h : c = []
      · subst h
        rw [getMountPointLoop, mountPointSpec]
        simp
      · rw [getMountPointLoop, mountPointSpec]
        simp only [h, dif_neg, not_false_iff]
        rw [show get_device_id env c.dropLast = Except.ok (dev c.dropLast) by
          simp [get_device_id, hstat]]
        by_cases hd : dev c ≠ dev c.dropLast
        · simp [hd, Ne.symm hd]
        · push_neg at hd
          have hlen : c.dropLast.length ≤ n := by
            have : c.length ≠ 0 := fun hl => h (List.length_eq_zero.mp hl)
            simp only [List.length_dropLast]
            omega
          have hrec := ih c.dropLast hlen
          simp [hd, hrec]
theorem getMountPoint_eq_spec (env : OsEnv) (dev : List String → Nat)
    (hstat : ∀ q, env.stat q = Except.ok (dev q)) (p : FsPath)
    (hp : p.absolute = true) :
    getMountPoint env p =
      Except.ok (mountPointSpec dev (env.canonical p.components)) := by
  rw [getMountPoint]
  simp only [hp, Bool.true_eq_false, if_false]
  rw [show get_device_id env (env.canonical p.components) =
      Except.ok (dev (env.canonical p.components)) by simp [get_device_id, hstat]]
  exact getMountPointLoop_eq_spec env dev hstat _ _ (Nat.le_refl _)

theorem mountPointSpec_ancestor (dev : List String → Nat) :
    ∀ n c, c.length ≤ n → mountPointSpec dev c <+: c := by
  intro n
  induction n with
  | zero =>
      intro c hc
      have hc0 : c = [] := List.length_eq_zero.mp (Nat.le_zero.mp hc)
      subst hc0
      rw [mountPointSpec]
      simp
  | succ n ih =>
      intro c hc
      rw [mountPointSpec]
      by_cases h : c = []
      · simp [h]
      · rw [dif_neg h]
        by_cases hd : dev c.dropLast ≠ dev c
        · rw [if_pos hd]
        · have hlen : c.dropLast.length ≤ n := by
            have : c.length ≠ 0 := fun hl => h (List.length_eq_zero.mp hl)
            simp only [List.length_dropLast]
            omega
          have hrec := ih c.dropLast hlen
          rw [if_neg hd]
          exact hrec.trans (List.dropLast_prefix c)

theorem mountPointSpec_boundary (dev : List String → Nat) :
    ∀ n c, c.length ≤ n →
      mountPointSpec dev c = [] ∨
        dev (mountPointSpec dev c).dropLast ≠ dev (mountPointSpec dev c) := by
  intro n
  induction n with
  | zero =>
      intro c hc
      have hc0 : c = [] := List.length_eq_zero.mp (Nat.le_zero.mp hc)
      subst hc0
      rw [mountPointSpec]
      simp
  | succ n ih =>
      intro c hc
      rw [mountPointSpec]
      by_cases h : c = []
      · simp [h]
      · rw [dif_neg h]
        by_cases hd : dev c.dropLast ≠ dev c
        · rw [if_pos hd]
          exact Or.inr hd
        · have hlen : c.dropLast.length ≤ n := by
            have : c.length ≠ 0 := fun hl => h (List.length_eq_zero.mp hl)
            simp only [List.length_dropLast]
            omega
          rw [if_neg hd]
          exact ih c.dropLast hlen

theorem mountPointSpec_idem (dev : List String → Nat) (c : List String) :
    mountPointSpec dev (mountPointSpec dev c) = mountPointSpec dev c := by
  rcases mountPointSpec_boundary dev c.length c (Nat.le_refl _) with h | h
  · rw [h, mountPointSpec_nil]
  · rw [mountPointSpec]
    by_cases hnil : mountPointSpec dev c = []
    · simp [hnil]
    · simp [hnil, h]

/-- OS state for the spec's scenario: a device mounted at `/mnt/data/sub`
holding `/mnt/data/sub/file`, everything above on the root device. -/
def scenarioDev : List String → Nat := fun p =>
  if p = ["mnt", "data", "sub", "file"] ∨ p = ["mnt", "data", "sub"] then 2 else 1

/-- The scenario environment: `stat` always succeeds with `scenarioDev`;
the scenario paths are already canonical. -/
def scenarioEnv : OsEnv :=
  { stat := fun p => Except.ok (scenarioDev p), canonical := fun p => p }
/-- An environment whose every `stat` call fails with `EINTR`. -/
def eintrEnv : OsEnv :=
  { stat := fun _ => Except.error EINTR, canonical := fun p => p }

/-! ### Claim theorems -/

/-- C1: for every absolute path on which every stat query succeeds,
`getMountPoint` walks upward from the canonicalized path and returns the
first path whose parent directory has a different device id than it, or the
filesystem root (`[]`) when no device-id change occurs; in particular, in the
scenario where `/mnt/data/sub/file` resides on a separate device from
`/mnt/data`, it returns `/mnt/data/sub`. -/
theorem getMountPoint_first_device_change :
    (∀ (env : OsEnv) (dev : List String → Nat) (p : FsPath),
        (∀ q, env.stat q = Except.ok (dev q)) → p.absolute = true →
        getMountPoint env p =
          Except.ok (mountPointSpec dev (env.canonical p.components)))
    ∧ scenarioDev ["mnt", "data", "sub", "file"] ≠ scenarioDev ["mnt", "data"]
    ∧ getMountPoint scenarioEnv ⟨true, ["mnt", "data", "sub", "file"]⟩ =
        Except.ok ["mnt", "data", "sub"] := by
  refine ⟨fun env dev p hstat hp => getMountPoint_eq_spec env dev hstat p hp, ?_, ?_⟩
  · decide
  · simp [getMountPoint, getMountPointLoop, get_device_id, scenarioEnv, scenarioDev]

/-- Witness for C1: the general clause instantiated at the scenario
environment and the scenario path. -/
theorem getMountPoint_first_device_change_witness :
    getMountPoint scenarioEnv ⟨true, ["mnt", "data", "sub", "file"]⟩ =
      Except.ok (mountPointSpec scenarioDev
        (scenarioEnv.canonical ["mnt", "data", "sub", "file"])) :=
  getMountPoint_first_device_change.1 scenarioEnv scenarioDev
    ⟨true, ["mnt", "data", "sub", "file"]⟩ (fun _ => rfl) rfl

/-- C3: when the OS state is fixed and every stat query succeeds (and
canonicalization fixes every prefix of a canonical path, as real
canonicalization does), `getMountPoint` returns an ancestor-or-self of the
canonicalized input, and applying it again to that result returns the same
path (idempotence). -/
theorem getMountPoint_ancestor_idempotent (env : OsEnv) (dev : List String → Nat)
    (hstat : ∀ q, env.stat q = Except.ok (dev q))
    (hcanon : ∀ q r, r <+: env.canonical q → env.canonical r = r)
    (p : FsPath) (hp : p.absolute = true) :
    ∃ m, getMountPoint env p = Except.ok m ∧
      m <+: env.canonical p.components ∧
      getMountPoint env ⟨true, m⟩ = Except.ok m := by
  refine ⟨mountPointSpec dev (env.canonical p.components),
    getMountPoint_eq_spec env dev hstat p hp,
    mountPointSpec_ancestor dev _ _ (Nat.le_refl _), ?_⟩
  have h1 := getMountPoint_eq_spec env dev hstat
    ⟨true, mountPointSpec dev (env.canonical p.components)⟩ rfl
  rw [h1]
  have hfix : env.canonical (mountPointSpec dev (env.canonical p.components)) =
      mountPointSpec dev (env.canonical p.components) :=
    hcanon p.components _ (mountPointSpec_ancestor dev _ _ (Nat.le_refl _))
  show Except.ok (mountPointSpec dev (env.canonical
    (mountPointSpec dev (env.canonical p.components)))) = _
  rw [hfix, mountPointSpec_idem]

/-- Witness for C3: instantiated at the scenario environment, whose stats all
succeed and whose canonicalization is the identity. -/
theorem getMountPoint_ancestor_idempotent_witness :
    ∃ m, getMountPoint scenarioEnv ⟨true, ["mnt", "data", "sub", "file"]⟩ =
        Except.ok m ∧
      m <+: scenarioEnv.canonical ["mnt", "data", "sub", "file"] ∧
      getMountPoint scenarioEnv ⟨true, m⟩ = Except.ok m :=
  getMountPoint_ancestor_idempotent scenarioEnv scenarioDev (fun _ => rfl)
    (fun _ _ _ => rfl) ⟨true, ["mnt", "data", "sub", "file"]⟩ rfl

/-- C4: on a relative path, `getMountPoint` fails with `LOGICAL_ERROR`, and
the result does not depend on the OS environment at all (no OS query is
performed before the failure). -/
theorem getMountPoint_relative_logical_error (env env' : OsEnv) (p : FsPath)
    (hp : p.absolute = false) :
    getMountPoint env p =
      Except.error (FsError.exception "Path is relative. It's a bug." LOGICAL_ERROR) ∧
    getMountPoint env p = getMountPoint env' p := by
  constructor <;> simp [getMountPoint, hp]

/-- Witness for C4: a concrete relative path under two different
environments. -/
theorem getMountPoint_relative_logical_error_witness :
    getMountPoint scenarioEnv ⟨false, ["a", "b"]⟩ =
      Except.error (FsError.exception "Path is relative. It's a bug." LOGICAL_ERROR) ∧
    getMountPoint scenarioEnv ⟨false, ["a", "b"]⟩ =
      getMountPoint eintrEnv ⟨false, ["a", "b"]⟩ :=
  getMountPoint_relative_logical_error scenarioEnv eintrEnv ⟨false, ["a", "b"]⟩ rfl

/-- C8 counterexample: the device-id query does NOT retry on `EINTR`. In an
environment where `stat` fails with `EINTR`, `getMountPoint` surfaces that
interruption as a `SYSTEM_ERROR` carrying errno `EINTR`, contradicting the
claim that signal interruption is retried and never surfaced as an error. -/
theorem get_device_id_eintr_surfaced :
    getMountPoint eintrEnv ⟨true, ["a"]⟩ =
      Except.error (FsError.errnoWithPath ("Cannot stat " ++ renderPath ["a"])
        (renderPath ["a"]) EINTR SYSTEM_ERROR) := by
  simp [getMountPoint, get_device_id, eintrEnv]

/-- C8 amended: the device-id query performs a single `stat` with no retry
loop; any failure — signal interruption (`EINTR`) included — is surfaced as a
`SYSTEM_ERROR` carrying the path and the OS error code. -/
theorem get_device_id_fails_on_any_errno (env : OsEnv) (p : FsPath)
    (hp : p.absolute = true) (e : Nat)
    (hfail : env.stat (env.canonical p.components) = Except.error e) :
    getMountPoint env p = Except.error (FsError.errnoWithPath
      ("Cannot stat " ++ renderPath (env.canonical p.components))
      (renderPath (env.canonical p.components)) e SYSTEM_ERROR) := by
  simp [getMountPoint, hp, get_device_id, hfail]

/-- Witness for the amended C8: a concrete environment whose `stat` fails
with `EINTR` on a concrete absolute path. -/
theorem get_device_id_fails_on_any_errno_witness :
    getMountPoint eintrEnv ⟨true, ["b", "c"]⟩ =
      Except.error (FsError.errnoWithPath
        ("Cannot stat " ++ renderPath (eintrEnv.canonical ["b", "c"]))
        (renderPath (eintrEnv.canonical ["b", "c"])) EINTR SYSTEM_ERROR) :=
  get_device_id_fails_on_any_errno eintrEnv ⟨true, ["b", "c"]⟩ rfl EINTR rfl
theorem mismatchReachedEnd_iff :
    ∀ a b : List String, mismatchReachedEnd a b = true ↔ b <+: a := by
  intro a
  induction a with
  | nil =>
      intro b
      cases b with
      | nil => simp [mismatchReachedEnd]
      | cons y ys => simp [mismatchReachedEnd]
  | cons x xs ih =>
      intro b
      cases b with
      | nil => simp [mismatchReachedEnd]
      | cons y ys =>
          simp only [mismatchReachedEnd]
          by_cases hxy : x = y
          · subst hxy
            rw [if_pos rfl, ih ys, List.cons_prefix_cons]
            simp
          · rw [if_neg hxy, List.cons_prefix_cons]
            simp [Ne.symm hxy]

/-- C2: `pathStartsWith` is true iff, after weak canonicalization, the prefix
path's component sequence is an initial segment of the path's component
sequence: component-wise, not string-wise (`/data/abc` does not start with
`/data/ab` even though the rendered strings are in a string-prefix relation);
a path starts with any component-wise ancestor and with itself. -/
theorem pathStartsWith_componentwise :
    (∀ (wc : FsPath → FsPath) (path prefix_path : FsPath),
        pathStartsWith wc path prefix_path = true ↔
          pathComponents (wc prefix_path) <+: pathComponents (wc path))
    ∧ (∀ (wc : FsPath → FsPath) (a b : FsPath),
        pathComponents (wc b) <+: pathComponents (wc a) →
        pathStartsWith wc a b = true)
    ∧ (∀ (wc : FsPath → FsPath) (p : FsPath), pathStartsWith wc p p = true)
    ∧ pathStartsWith (fun q => q) ⟨true, ["data", "abc"]⟩ ⟨true, ["data", "ab"]⟩ = false
    ∧ (renderPath ["data", "ab"]).data <+: (renderPath ["data", "abc"]).data
    ∧ pathStartsWith (fun q => q) ⟨true, ["data", "abc", "x"]⟩ ⟨true, ["data", "abc"]⟩
        = true := by
  have hiff : ∀ (wc : FsPath → FsPath) (path prefix_path : FsPath),
      pathStartsWith wc path prefix_path = true ↔
        pathComponents (wc prefix_path) <+: pathComponents (wc path) := by
    intro wc path prefix_path
    exact mismatchReachedEnd_iff _ _
  refine ⟨hiff, fun wc a b h => (hiff wc a b).mpr h,
    fun wc p => (hiff wc p p).mpr (List.prefix_refl _), ?_, ?_, ?_⟩
  · simp [pathStartsWith, pathComponents, mismatchReachedEnd]
  · decide
  · simp [pathStartsWith, pathComponents, mismatchReachedEnd]

/-- Witness for C2: the ancestor clause applied to a concrete path and its
concrete parent directory. -/
theorem pathStartsWith_componentwise_witness :
    pathStartsWith (fun q => q) ⟨true, ["data", "abc", "y"]⟩ ⟨true, ["data"]⟩
      = true :=
  pathStartsWith_componentwise.2.1 (fun q => q) ⟨true, ["data", "abc", "y"]⟩
    ⟨true, ["data"]⟩ (by decide)
theorem scanMounts_find (m : String) :
    ∀ (l : List Mntent) (e : Mntent),
      l.find? (fun x => x.mnt_dir == m) = some e →
      scanMounts m l = Except.ok e.mnt_fsname := by
  intro l
  induction l with
  | nil => intro e h; simp at h
  | cons a rest ih =>
      intro e h
      by_cases ha : a.mnt_dir = m
      · rw [List.find?_cons_of_pos _ (by simp [ha])] at h
        cases h
        simp [scanMounts, ha]
      · rw [List.find?_cons_of_neg _ (by simp [ha])] at h
        simp only [scanMounts, if_neg ha]
        exact ih e h

theorem scanMounts_no_match (m : String) :
    ∀ l : List Mntent, (∀ e ∈ l, e.mnt_dir ≠ m) →
      scanMounts m l = Except.error (FsError.exception
        ("Cannot find name of filesystem by mount point " ++ m) SYSTEM_ERROR) := by
  intro l
  induction l with
  | nil => intro _; rfl
  | cons a rest ih =>
      intro h
      have ha : a.mnt_dir ≠ m := h a (List.mem_cons_self _ _)
      simp only [scanMounts, if_neg ha]
      exact ih (fun e he => h e (List.mem_cons_of_mem _ he))

/-- C5: when the mount table contains an entry whose directory field equals
the requested mount point by exact string equality, `getFilesystemName`
returns the source-device name of the first such entry in table order — in
particular, with the same directory listed twice only the first entry is
returned. -/
theorem getFilesystemName_first_match :
    (∀ (mtab : List Mntent) (m : String) (e : Mntent),
        mtab.find? (fun x => x.mnt_dir == m) = some e →
        getFilesystemName (some mtab) m = Except.ok e.mnt_fsname)
    ∧ getFilesystemName
        (some [{ mnt_dir := "/mnt", mnt_fsname := "/dev/sdb1" },
               { mnt_dir := "/mnt", mnt_fsname := "/dev/sdc1" }]) "/mnt" =
        Except.ok "/dev/sdb1" := by
  constructor
  · intro mtab m e h
    simpa [getFilesystemName] using scanMounts_find m mtab e h
  · simp [getFilesystemName, scanMounts]

/-- Witness for C5: the first-match clause applied to a concrete duplicated
table. -/
theorem getFilesystemName_first_match_witness :
    getFilesystemName
        (some [{ mnt_dir := "/data", mnt_fsname := "/dev/sda2" },
               { mnt_dir := "/data", mnt_fsname := "/dev/sda3" }]) "/data" =
      Except.ok (Mntent.mk "/data" "/dev/sda2").mnt_fsname :=
  getFilesystemName_first_match.1
    [{ mnt_dir := "/data", mnt_fsname := "/dev/sda2" },
     { mnt_dir := "/data", mnt_fsname := "/dev/sda3" }] "/data"
    ⟨"/data", "/dev/sda2"⟩ (by simp [List.find?])

/-- C6: `getFilesystemName` fails with `SYSTEM_ERROR` when the mount table
cannot be opened, fails with `SYSTEM_ERROR` when a full scan finds no entry
for the mount point, and the two failure values are distinct (their messages
differ). -/
theorem getFilesystemName_errors (m : String) (mtab : List Mntent)
    (hnone : ∀ e ∈ mtab, e.mnt_dir ≠ m) :
    getFilesystemName none m = Except.error (FsError.exception
        "Cannot open /etc/mtab to get name of filesystem" SYSTEM_ERROR)
    ∧ getFilesystemName (some mtab) m = Except.error (FsError.exception
        ("Cannot find name of filesystem by mount point " ++ m) SYSTEM_ERROR)
    ∧ FsError.exception "Cannot open /etc/mtab to get name of filesystem"
        SYSTEM_ERROR ≠
      FsError.exception ("Cannot find name of filesystem by mount point " ++ m)
        SYSTEM_ERROR := by
  refine ⟨rfl, by simpa [getFilesystemName] using scanMounts_no_match m mtab hnone, ?_⟩
  intro hcontra
  have hmsg : "Cannot open /etc/mtab to get name of filesystem" =
      "Cannot find name of filesystem by mount point " ++ m := by
    have := FsError.exception.inj hcontra
    exact this.1
  have hdata : ("Cannot find name of filesystem by mount point ").data ++ m.data =
      ("Cannot open /etc/mtab to get name of filesystem").data := by
    have := congrArg String.data hmsg.symm
    simpa [String.data_append] using this
  have hpre : ("Cannot find name of filesystem by mount point ").data <+:
      ("Cannot open /etc/mtab to get name of filesystem").data := ⟨m.data, hdata⟩
  exact absurd hpre (by decide)

/-- Witness for C6: a concrete mount point absent from a concrete table. -/
theorem getFilesystemName_errors_witness :
    getFilesystemName none "/xyz" = Except.error (FsError.exception
        "Cannot open /etc/mtab to get name of filesystem" SYSTEM_ERROR)
    ∧ getFilesystemName (some [{ mnt_dir := "/a", mnt_fsname := "/dev/sda1" }]) "/xyz" =
      Except.error (FsError.exception
        ("Cannot find name of filesystem by mount point " ++ "/xyz") SYSTEM_ERROR)
    ∧ FsError.exception "Cannot open /etc/mtab to get name of filesystem"
        SYSTEM_ERROR ≠
      FsError.exception ("Cannot find name of filesystem by mount point " ++ "/xyz")
        SYSTEM_ERROR :=
  getFilesystemName_errors "/xyz" [{ mnt_dir := "/a", mnt_fsname := "/dev/sda1" }]
    (by decide)

/-- C7: `getStatVFS` retries the syscall while it fails with `EINTR`, returns
the struct from the first successful call, and surfaces any other errno as
`CANNOT_STATVFS` carrying the path and the errno. -/
theorem getStatVFS_retries_eintr (path : String) (k : Nat) (fs : StatVFS)
    (e : Nat) (he : e ≠ EINTR) (rest rest' : List StatVFSOutcome) :
    getStatVFS path (List.replicate k (Except.error EINTR) ++ Except.ok fs :: rest) =
      some (Except.ok fs)
    ∧ getStatVFS path
        (List.replicate k (Except.error EINTR) ++ Except.error e :: rest') =
      some (Except.error (FsError.errnoWithPath
        "Could not calculate available disk space (statvfs)" path e CANNOT_STATVFS)) := by
  induction k with
  | zero => simp [getStatVFS, he]
  | succ k ih => simpa [List.replicate_succ, getStatVFS] using ih

/-- Witness for C7: two interruptions before a successful call, and two
interruptions before a hard failure (errno 13). -/
theorem getStatVFS_retries_eintr_witness :
    getStatVFS "/p" (List.replicate 2 (Except.error EINTR) ++
        Except.ok (StatVFS.mk 4096 4096 100 50) :: []) =
      some (Except.ok (StatVFS.mk 4096 4096 100 50))
    ∧ getStatVFS "/p" (List.replicate 2 (Except.error EINTR) ++
        Except.error 13 :: []) =
      some (Except.error (FsError.errnoWithPath
        "Could not calculate available disk space (statvfs)" "/p" 13 CANNOT_STATVFS)) :=
  getStatVFS_retries_eintr "/p" 2 (StatVFS.mk 4096 4096 100 50) 13 (by decide) [] []
/-- C9: with the free-space API available, `enoughSpaceInDirectory` answers
true exactly when the requested size is at most the free space; with the API
unavailable it answers true unconditionally; and a request of 0 bytes is
answered true whenever the filesystem is queryable. -/
theorem enoughSpaceInDirectory_le_free :
    (∀ free data_size : Nat,
        enoughSpaceInDirectory true (Except.ok free) data_size = Except.ok true ↔
          data_size ≤ free)
    ∧ (∀ (free_space : Except Nat Nat) (data_size : Nat),
        enoughSpaceInDirectory false free_space data_size = Except.ok true)
    ∧ (∀ (poco_recent : Bool) (free : Nat),
        enoughSpaceInDirectory poco_recent (Except.ok free) 0 = Except.ok true) := by
  refine ⟨fun free data_size => ?_, fun free_space data_size => ?_,
    fun poco_recent free => ?_⟩
  · simp [enoughSpaceInDirectory]
  · simp [enoughSpaceInDirectory]
  · cases poco_recent <;> simp [enoughSpaceInDirectory]

theorem createDirsAux_ok :
    ∀ (todo : List (List String)) (fs : DirSet),
      ∃ fs', createDirsAux fs todo = Except.ok fs' ∧
        (∀ d ∈ todo, d ∈ fs') ∧ (∀ d ∈ fs, d ∈ fs') := by
  intro todo
  induction todo with
  | nil => exact fun fs => ⟨fs, rfl, by simp, fun d hd => hd⟩
  | cons d rest ih =>
      intro fs
      by_cases hd : d ∈ fs
      · obtain ⟨fs', h1, h2, h3⟩ := ih fs
        refine ⟨fs', ?_, ?_, h3⟩
        · simp [createDirsAux, hd, h1]
        · intro x hx
          rcases List.mem_cons.mp hx with rfl | hx
          · exact h3 _ hd
          · exact h2 _ hx
      · obtain ⟨fs', h1, h2, h3⟩ := ih (d :: fs)
        refine ⟨fs', ?_, ?_, fun x hx => h3 _ (List.mem_cons_of_mem _ hx)⟩
        · simp [createDirsAux, hd, mkdirOne, h1]
        · intro x hx
          rcases List.mem_cons.mp hx with rfl | hx
          · exact h3 _ (List.mem_cons_self _ _)
          · exact h2 _ hx

theorem createDirsAux_all_present :
    ∀ (todo : List (List String)) (fs : DirSet), (∀ d ∈ todo, d ∈ fs) →
      createDirsAux fs todo = Except.ok fs := by
  intro todo
  induction todo with
  | nil => intro fs _; rfl
  | cons d rest ih =>
      intro fs h
      have hd : d ∈ fs := h d (List.mem_cons_self _ _)
      simp only [createDirsAux, if_pos hd]
      exact ih fs (fun x hx => h x (List.mem_cons_of_mem _ hx))

/-- C10: `createTemporaryFile` creates the directory and every missing
ancestor (keeping the directories already present), never fails on existing
directories, returns a temporary-file handle scoped to the directory, and a
second call with the same directory succeeds with the directory set
unchanged. -/
theorem createTemporaryFile_creates_dirs_idempotent (fs : DirSet)
    (path : List String) :
    ∃ fs', createTemporaryFile fs path = Except.ok (fs', TemporaryFile.mk path) ∧
      (∀ d, d <+: path → d ∈ fs') ∧
      (∀ d ∈ fs, d ∈ fs') ∧
      createTemporaryFile fs' path = Except.ok (fs', TemporaryFile.mk path) := by
  obtain ⟨fs', h1, h2, h3⟩ := createDirsAux_ok path.inits fs
  refine ⟨fs', ?_, ?_, h3, ?_⟩
  · simp [createTemporaryFile, createDirectories, h1]
  · intro d hd
    exact h2 d ((List.mem_inits d path).mpr hd)
  · have hall : createDirsAux fs' path.inits = Except.ok fs' :=
      createDirsAux_all_present path.inits fs' (fun d hd => h2 d hd)
    simp [createTemporaryFile, createDirectories, hall]

/-- Witness for C10: a fresh filesystem and the directory `/tmp/work`. -/
theorem createTemporaryFile_creates_dirs_idempotent_witness :
    ∃ fs', createTemporaryFile [] ["tmp", "work"] =
        Except.ok (fs', TemporaryFile.mk ["tmp", "work"]) ∧
      (∀ d, d <+: ["tmp", "work"] → d ∈ fs') ∧
      (∀ d ∈ ([] : DirSet), d ∈ fs') ∧
      createTemporaryFile fs' ["tmp", "work"] =
        Except.ok (fs', TemporaryFile.mk ["tmp", "work"]) :=
  createTemporaryFile_creates_dirs_idempotent [] ["tmp", "work"]

end FilesystemHelpers
